import Mathlib

/-!
Shallow embedding of `bin/find_candidate_chimeric_seqs_from_mir_alignments.py`
(clash_seq pipeline).  Strings of the Python program are modelled as
`List Char` (sequences) or `String` (names/labels); Python dictionaries are
modelled as insertion-ordered association lists with dict-style update;
fatal crashes (uncaught exceptions, `sys.exit(1)`, the `return 1` that makes
the caller's tuple unpacking fail) are modelled by `Option`/`Except` errors.
-/

namespace ClashSeq

/-! ### Python string primitives (slicing with negative indices, `str.find`) -/

/-- Python slice `s[:k]` for an `Int` bound `k` (negative counts from the end,
out-of-range clamps). -/
def pyTake (s : List Char) (k : Int) : List Char :=
  if k < 0 then s.take ((s.length : Int) + k).toNat else s.take k.toNat

/-- Python slice `s[k:]` for an `Int` bound `k` (negative counts from the end,
out-of-range clamps). -/
def pyDrop (s : List Char) (k : Int) : List Char :=
  if k < 0 then s.drop ((s.length : Int) + k).toNat else s.drop k.toNat

/-- Python indexing `s[i]`: negative `i` counts from the end; an index out of
range raises `IndexError`, modelled as `none`. -/
def pyGet (s : List Char) (i : Int) : Option Char :=
  let j : Int := if i < 0 then (s.length : Int) + i else i
  if j < 0 then none else s.get? j.toNat

/-- Python `hay.find(sub)`: index of the first occurrence of `sub` in `hay`
(`none` models the `-1` "not found" result). -/
def pyFind : List Char → List Char → Option Nat
  | [], sub => if sub.isPrefixOf ([] : List Char) then some 0 else none
  | c :: t, sub =>
    if sub.isPrefixOf (c :: t) then some 0 else (pyFind t sub).map (· + 1)

/-! ### Association lists standing in for Python dicts -/

/-- Dict lookup `d[k]` (first entry with the key; keys are unique because
entries are only created through `upsert`/`bumpCount`). -/
def lookup {κ α : Type} [DecidableEq κ] : List (κ × α) → κ → Option α
  | [], _ => none
  | p :: rest, k => if p.1 = k then some p.2 else lookup rest k

/-- Dict assignment `d[k] = v`: replace the value in place if the key exists,
otherwise append (insertion order preserved, as in Python dicts/OrderedDict). -/
def upsert {κ α : Type} [DecidableEq κ] : List (κ × α) → κ → α → List (κ × α)
  | [], k, v => [(k, v)]
  | p :: rest, k, v => if p.1 = k then (k, v) :: rest else p :: upsert rest k v

/-- Python `defaultdict(int)` increment `d[k] += 1`. -/
def bumpCount : List (String × Nat) → String → List (String × Nat)
  | [], k => [(k, 1)]
  | p :: rest, k =>
    if p.1 = k then (p.1, p.2 + 1) :: rest else p :: bumpCount rest k

/-! ### Data model: bowtie rows and mismatch descriptors -/

/-- One parsed mismatch descriptor `position:reference_base>read_base`
from column 8 of a bowtie row. -/
structure Mut where
  pos : Nat
  ref : Char
  query : Char
deriving DecidableEq, Repr

/-- One 8-column bowtie output row, already split at tabs and with the
mismatch column parsed into descriptors. -/
structure BowtieRow where
  mir : String
  strand : String
  ref_name : String
  offset0base : String
  qseq : List Char
  qualities : String
  alt_alignments : String
  mutations : List Mut
deriving DecidableEq, Repr

/-- One iteration of the mutation loop in `get_reference_seq_from_query`:
`rseq = rseq[:pos] + ref + rseq[pos+1:]`, with the position reflected through
`(len(rseq)-1) - pos` on the `-` strand.  The subsequent
`assert qseq[pos0base] == query` catches `AssertionError` (warning only), but
an out-of-range index raises an uncaught `IndexError`, modelled as `none`. -/
def applyMutation (strand : String) (qseq rseq : List Char) (m : Mut) :
    Option (List Char) :=
  let p : Int :=
    if strand = "-" then (rseq.length : Int) - 1 - (m.pos : Int) else (m.pos : Int)
  let rseq2 := pyTake rseq p ++ [m.ref] ++ pyDrop rseq (p + 1)
  match pyGet qseq p with
  | none => none
  | some _ => some rseq2

/-- The `for mutation in mutations` loop of `get_reference_seq_from_query`. -/
def applyMutations (strand : String) (qseq : List Char) :
    List Char → List Mut → Option (List Char)
  | rseq, [] => some rseq
  | rseq, m :: rest =>
    match applyMutation strand qseq rseq m with
    | none => none
    | some rseq2 => applyMutations strand qseq rseq2 rest

/-- Function `get_reference_seq_from_query(row)`: rebuild the reference sequence from
the aligned sequence and the mismatch descriptors; returns
`(ref_name, rseq, strand, mir)`. -/
def get_reference_seq_from_query (row : BowtieRow) :
    Option (String × List Char × String × String) :=
  (applyMutations row.strand row.qseq row.qseq row.mutations).map
    (fun rseq => (row.ref_name, rseq, row.strand, row.mir))

/-! ### AlignmentIndex: `get_rnames_and_rseq_fragments_from_bowtie_output` -/

/-- The per-read payload stored in the `rnames` dictionary:
`{"fragment": rseq, "strand": strand, "mir": mir}`. -/
structure FragInfo where
  fragment : List Char
  strand : String
  mir : String
deriving DecidableEq, Repr

/-- Python `rname.split('#')[0]`: the part of the name before the first `#`. -/
def splitHashHead (s : String) : String :=
  String.mk (s.data.takeWhile (fun c => c ≠ '#'))

/-- The loop body of `get_rnames_and_rseq_fragments_from_bowtie_output`:
reconstruct the reference sequence, check `rname.count('#') == 1`
(an uncaught `AssertionError` aborts the run: `none`), and strip the
collapse suffix. -/
def indexLine (row : BowtieRow) : Option (String × FragInfo) :=
  match get_reference_seq_from_query row with
  | none => none
  | some (rname, rseq, strand, mir) =>
    if rname.data.count '#' = 1 then
      some (splitHashHead rname, ⟨rseq, strand, mir⟩)
    else none

/-- The accumulation loop over bowtie rows: dict overwrite into `rnames`
and `metrics[rname] += 1`. -/
def buildIndexAux :
    List BowtieRow → List (String × FragInfo) → List (String × Nat) →
    Option (List (String × FragInfo) × List (String × Nat))
  | [], rnames, metrics => some (rnames, metrics)
  | row :: rest, rnames, metrics =>
    match indexLine row with
    | none => none
    | some (rname, info) =>
      buildIndexAux rest (upsert rnames rname info) (bumpCount metrics rname)

/-- Function `get_rnames_and_rseq_fragments_from_bowtie_output(fn)` over the parsed
rows of the alignment file. -/
def get_rnames_and_rseq_fragments_from_bowtie_output (rows : List BowtieRow) :
    Option (List (String × FragInfo) × List (String × Nat)) :=
  buildIndexAux rows [] []

/-! ### IdentityExpander: `get_name2seq_dict` and
`add_all_sequences_to_name2seq_dictionary` -/

/-- One FASTA record: `record.id` and `str(record.seq)`. -/
structure FastaRecord where
  id : String
  seq : List Char
deriving DecidableEq, Repr

/-- The per-read payload stored in `name2seq_dict` and `all_name2seq_dict`:
`{"read_fragment": .., "read_sequence": .., "strand": .., "mir": ..}`. -/
structure SeqEntry where
  read_fragment : List Char
  read_sequence : List Char
  strand : String
  mir : String
deriving DecidableEq, Repr

/-- Function `get_name2seq_dict(fa_file, rnames)`: scan the FASTA records; for each
record whose id has a resolved fragment, store its payload under the id in
`name2seq_dict` and map its sequence to the id in `seq2name_dict`. -/
def get_name2seq_dict (fa : List FastaRecord) (rnames : List (String × FragInfo)) :
    List (String × SeqEntry) × List (List Char × String) :=
  fa.foldl
    (fun acc record =>
      match lookup rnames record.id with
      | some info =>
        (upsert acc.1 record.id ⟨info.fragment, record.seq, info.strand, info.mir⟩,
         upsert acc.2 record.seq record.id)
      | none => acc)
    ([], [])

/-- The loop of `add_all_sequences_to_name2seq_dictionary`: for each FASTA
record whose sequence is a key of `seq2name_dict`, check the stored full
sequence of the resolved representative against the record's sequence (an
uncaught `AssertionError`/`KeyError` aborts the run: `none`) and store the
representative's payload under the record's own id. -/
def addAllAux (name2seq : List (String × SeqEntry)) (seq2name : List (List Char × String)) :
    List FastaRecord → List (String × SeqEntry) → Option (List (String × SeqEntry))
  | [], acc => some acc
  | record :: rest, acc =>
    match lookup seq2name record.seq with
    | none => addAllAux name2seq seq2name rest acc
    | some origId =>
      match lookup name2seq origId with
      | none => none
      | some entry =>
        if record.seq = entry.read_sequence then
          addAllAux name2seq seq2name rest
            (upsert acc record.id
              ⟨entry.read_fragment, record.seq, entry.strand, entry.mir⟩)
        else none

/-- Function `add_all_sequences_to_name2seq_dictionary(fa_file, name2seq_dict,
seq2name_dict)`. -/
def add_all_sequences_to_name2seq_dictionary (fa : List FastaRecord)
    (name2seq : List (String × SeqEntry)) (seq2name : List (List Char × String)) :
    Option (List (String × SeqEntry)) :=
  addAllAux name2seq seq2name fa []

/-! ### FlankExtractor: `write_candidate_chimeric_targets_to_file` -/

/-- Which flank a candidate FASTA record carries. -/
inductive FlankKind where
  | upstream
  | downstream
deriving DecidableEq, Repr

/-- One emitted candidate FASTA record
`">{rname}_{strand}_{kind}\n{seq}\n"`, kept structured. -/
structure Candidate where
  rname : String
  strand : String
  kind : FlankKind
  seq : List Char
deriving DecidableEq, Repr

/-- The per-read metrics row built by the flank-extraction loop. -/
structure MetricsRow where
  downstream_pass : String
  upstream_pass : String
  upstream : List Char
  mir : List Char
  mirname : String
  downstream : List Char
  fullread : List Char
deriving DecidableEq, Repr

/-- The two ways `write_candidate_chimeric_targets_to_file` aborts the run:
`sys.exit(1)` when the fragment is not found in the full read, and the
`return 1` on an unrecognized strand (which makes the caller's tuple
unpacking raise an uncaught `TypeError`). -/
inductive ExtractErr where
  | fragmentNotFound
  | badStrand
deriving DecidableEq, Repr

/-- The body of the `for rname, d in name2seq.iteritems()` loop for one
entry: locate the fragment, split the full read into `lo`/`hi`, assign
flanks by strand, filter by `min_seq_len`, and build the metrics row. -/
def processEntry (min_seq_len : Nat) (rname : String) (d : SeqEntry) :
    Except ExtractErr (List Candidate × MetricsRow) :=
  match pyFind d.read_sequence d.read_fragment with
  | none => .error .fragmentNotFound
  | some i =>
    let lo := d.read_sequence.take i
    let hi := d.read_sequence.drop (i + d.read_fragment.length)
    if d.strand = "-" then
      let downstream_seq := lo
      let upstream_seq := hi
      .ok
        ((if min_seq_len ≤ downstream_seq.length then
            [⟨rname, d.strand, .downstream, downstream_seq⟩] else []) ++
         (if min_seq_len ≤ upstream_seq.length then
            [⟨rname, d.strand, .upstream, upstream_seq⟩] else []),
         { downstream_pass := if min_seq_len ≤ downstream_seq.length then "yes" else "no"
           upstream_pass := if min_seq_len ≤ upstream_seq.length then "yes" else "no"
           upstream := upstream_seq
           mir := d.read_fragment
           mirname := d.mir
           downstream := downstream_seq
           fullread := d.read_sequence })
    else if d.strand = "+" then
      let downstream_seq := hi
      let upstream_seq := lo
      .ok
        ((if min_seq_len ≤ downstream_seq.length then
            [⟨rname, d.strand, .downstream, downstream_seq⟩] else []) ++
         (if min_seq_len ≤ upstream_seq.length then
            [⟨rname, d.strand, .upstream, upstream_seq⟩] else []),
         { downstream_pass := if min_seq_len ≤ downstream_seq.length then "yes" else "no"
           upstream_pass := if min_seq_len ≤ upstream_seq.length then "yes" else "no"
           upstream := upstream_seq
           mir := d.read_fragment
           mirname := d.mir
           downstream := downstream_seq
           fullread := d.read_sequence })
    else .error .badStrand

/-- The accumulation loop of `write_candidate_chimeric_targets_to_file`:
candidates are appended to `l`, metrics rows are keyed by read name. -/
def writeAux (min_seq_len : Nat) :
    List (String × SeqEntry) → List Candidate × List (String × MetricsRow) →
    Except ExtractErr (List Candidate × List (String × MetricsRow))
  | [], acc => .ok acc
  | p :: rest, acc =>
    match processEntry min_seq_len p.1 p.2 with
    | .error e => .error e
    | .ok (cs, row) => writeAux min_seq_len rest (acc.1 ++ cs, upsert acc.2 p.1 row)

/-- Function `write_candidate_chimeric_targets_to_file(name2seq, min_seq_len)`. -/
def write_candidate_chimeric_targets_to_file (name2seq : List (String × SeqEntry))
    (min_seq_len : Nat) :
    Except ExtractErr (List Candidate × List (String × MetricsRow)) :=
  writeAux min_seq_len name2seq ([], [])

/-- The rows of the alignment input whose stripped identifier is `id`
(rows on which `indexLine` succeeds with that identifier). -/
def rowsWithId (rows : List BowtieRow) (id : String) : List BowtieRow :=
  rows.filter (fun r => decide ((indexLine r).map Prod.fst = some id))

/-! ### Concrete sample inputs (used to instantiate the theorems below) -/

/-- A `-`-strand row with one in-range mismatch descriptor. -/
def exRow10 : BowtieRow :=
  ⟨"mir-z", "-", "read#1", "0", ['A','C','G','T'], "IIII", "0", [⟨1, 'G', 'T'⟩]⟩

/-- First of two rows sharing the collapsed read name `readA#1`. -/
def exRowA : BowtieRow := ⟨"mir1", "+", "readA#1", "0", ['A','C'], "II", "0", []⟩

/-- Second of two rows sharing the collapsed read name `readA#1`. -/
def exRowB : BowtieRow := ⟨"mir2", "+", "readA#1", "0", ['G','G'], "II", "0", []⟩

/-- A row whose reference name carries no `#` delimiter at all. -/
def exRowBad : BowtieRow := ⟨"mir9", "+", "readBad", "0", ['A','C'], "II", "0", []⟩

/-! ### Helper lemmas about the Python primitives -/

theorem pyTake_coe (s : List Char) (j : Nat) : pyTake s (j : Int) = s.take j := by
  simp [pyTake]

theorem pyDrop_coe (s : List Char) (j : Nat) : pyDrop s (j : Int) = s.drop j := by
  simp [pyDrop]

theorem pyGet_coe_lt (s : List Char) (j : Nat) (h : j < s.length) :
    pyGet s (j : Int) = some (s.get ⟨j, h⟩) := by
  have hnn : ¬ ((j : Int) < 0) := by omega
  simp only [pyGet, hnn, if_false, Int.toNat_natCast]
  exact List.get?_eq_get h

/-- In-range single-base substitution: `s[:j] + c + s[j+1:]` is `s.set j c`. -/
theorem pySubst_eq_set (s : List Char) (j : Nat) (c : Char) (h : j < s.length) :
    pyTake s (j : Int) ++ [c] ++ pyDrop s ((j : Int) + 1) = s.set j c := by
  have h2 : ((j : Int) + 1) = ((j + 1 : Nat) : Int) := by omega
  rw [pyTake_coe, h2, pyDrop_coe, List.set_eq_take_cons_drop c h]
  simp

/-- An in-range mismatch application is exactly a single `List.set` at the
strand-mapped position. -/
theorem applyMutation_eq_set (strand : String) (qseq rseq : List Char) (m : Mut)
    (hlen : rseq.length = qseq.length) (hpos : m.pos < qseq.length) :
    applyMutation strand qseq rseq m =
      some (rseq.set (if strand = "-" then rseq.length - 1 - m.pos else m.pos) m.ref) := by
  have hpos' : m.pos < rseq.length := hlen ▸ hpos
  unfold applyMutation
  by_cases hs : strand = "-"
  · have hj : (rseq.length : Int) - 1 - (m.pos : Int) =
        ((rseq.length - 1 - m.pos : Nat) : Int) := by omega
    have hj2 : rseq.length - 1 - m.pos < rseq.length := by omega
    have hj3 : rseq.length - 1 - m.pos < qseq.length := hlen ▸ hj2
    simp only [hs, if_true, hj, pyGet_coe_lt qseq _ hj3,
      pySubst_eq_set rseq _ m.ref hj2]
  · simp only [hs, if_false, pyGet_coe_lt qseq _ hpos,
      pySubst_eq_set rseq _ m.ref hpos']

/-- As long as every descriptor position is strictly below the length of the
aligned sequence, the mutation loop succeeds and preserves the length. -/
theorem applyMutations_length (strand : String) (qseq : List Char) :
    ∀ (muts : List Mut) (rseq : List Char), rseq.length = qseq.length →
      (∀ m ∈ muts, m.pos < qseq.length) →
      ∃ out, applyMutations strand qseq rseq muts = some out ∧
        out.length = qseq.length
  | [], rseq, hlen, _ => ⟨rseq, rfl, hlen⟩
  | m :: rest, rseq, hlen, hpos => by
    have h1 := applyMutation_eq_set strand qseq rseq m hlen (hpos m (by simp))
    have h2 : (rseq.set (if strand = "-" then rseq.length - 1 - m.pos else m.pos)
        m.ref).length = qseq.length := by
      rw [List.length_set]; exact hlen
    obtain ⟨out, hout, hlen2⟩ :=
      applyMutations_length strand qseq rest _ h2
        (fun m' hm' => hpos m' (by simp [hm']))
    exact ⟨out, by rw [applyMutations, h1]; exact hout, hlen2⟩

/-- Single-descriptor reconstruction: the fragment is the aligned sequence
with the strand-mapped position overwritten by the reference base. -/
theorem reconstruct_single (strand : String) (q : List Char) (p : Nat)
    (ref qu : Char) (mir rn off qual alt : String) (hp : p < q.length) :
    get_reference_seq_from_query ⟨mir, strand, rn, off, q, qual, alt, [⟨p, ref, qu⟩]⟩ =
      some (rn, q.set (if strand = "-" then q.length - 1 - p else p) ref, strand, mir) := by
  unfold get_reference_seq_from_query
  simp only [applyMutations,
    applyMutation_eq_set strand q q ⟨p, ref, qu⟩ rfl hp]
  rfl

/-- Correctness of `pyFind`: at the returned index, the needle really splits
the haystack. -/
theorem pyFind_spec :
    ∀ (hay sub : List Char) (i : Nat), pyFind hay sub = some i →
      hay.take i ++ sub ++ hay.drop (i + sub.length) = hay
  | [], sub, i, h => by
    by_cases hpre : sub.isPrefixOf ([] : List Char)
    · rw [pyFind, if_pos hpre] at h
      have hi : i = 0 := by
        have := Option.some.inj h
        omega
      have hsub : sub = [] :=
        List.prefix_nil.mp ( List.isPrefixOf_iff_prefix.mp hpre)
      simp [hi, hsub]
    · rw [pyFind, if_neg hpre] at h
      exact absurd h (by simp)
  | c :: t, sub, i, h => by
    by_cases hpre : sub.isPrefixOf (c :: t)
    · rw [pyFind, if_pos hpre] at h
      have hi : i = 0 := by
        have := Option.some.inj h
        omega
      obtain ⟨rest, hrest⟩ := List.isPrefixOf_iff_prefix.mp hpre
      subst hi
      calc List.take 0 (c :: t) ++ sub ++ List.drop (0 + sub.length) (c :: t)
          = sub ++ List.drop sub.length (sub ++ rest) := by rw [← hrest]; simp
        _ = sub ++ rest := by rw [List.drop_left]
        _ = c :: t := hrest
    · rw [pyFind, if_neg hpre] at h
      rw [Option.map_eq_some'] at h
      obtain ⟨j, hj, hij⟩ := h
      have ih := pyFind_spec t sub j hj
      subst hij
      calc List.take (j + 1) (c :: t) ++ sub ++ List.drop (j + 1 + sub.length) (c :: t)
          = c :: (List.take j t ++ sub ++ List.drop (j + sub.length) t) := by
            simp [List.take_succ_cons, Nat.add_right_comm j 1 sub.length]
        _ = c :: t := by rw [ih]

/-! ### Helper lemmas about the dict model and the index builder -/

theorem lookup_upsert {κ α : Type} [DecidableEq κ]
    (l : List (κ × α)) (k k' : κ) (v : α) :
    lookup (upsert l k v) k' = if k' = k then some v else lookup l k' := by
  induction l with
  | nil =>
    by_cases h : k' = k
    · subst h; simp [upsert, lookup]
    · have h2 : ¬ (k = k') := fun hh => h hh.symm
      simp [upsert, lookup, h, h2]
  | cons p rest ih =>
    by_cases hpk : p.1 = k
    · by_cases h : k' = k
      · subst h; simp [upsert, hpk, lookup]
      · have h2 : ¬ (k = k') := fun hh => h hh.symm
        have h3 : ¬ (p.1 = k') := by rw [hpk]; exact h2
        simp [upsert, hpk, lookup, h, h2, h3]
    · by_cases hp' : p.1 = k'
      · have h : ¬ (k' = k) := fun hh => hpk (hp'.trans hh)
        simp [upsert, hpk, lookup, hp', h]
      · simp [upsert, hpk, lookup, hp', ih]

theorem lookupD_bumpCount (l : List (String × Nat)) (k k' : String) :
    (lookup (bumpCount l k) k').getD 0 =
      (if k' = k then 1 else 0) + (lookup l k').getD 0 := by
  induction l with
  | nil =>
    by_cases h : k' = k
    · subst h; simp [bumpCount, lookup]
    · have h2 : ¬ (k = k') := fun hh => h hh.symm
      simp [bumpCount, lookup, h, h2]
  | cons p rest ih =>
    by_cases hpk : p.1 = k
    · by_cases h : k' = k
      · subst h; simp [bumpCount, hpk, lookup, Nat.add_comm]
      · have h2 : ¬ (k = k') := fun hh => h hh.symm
        have h3 : ¬ (p.1 = k') := by rw [hpk]; exact h2
        simp [bumpCount, hpk, lookup, h, h2, h3]
    · by_cases hp' : p.1 = k'
      · have h : ¬ (k' = k) := fun hh => hpk (hp'.trans hh)
        simp [bumpCount, hpk, lookup, hp', h]
      · simp [bumpCount, hpk, lookup, hp', ih]

/-- A row whose reconstruction or delimiter check fails aborts the whole
index-building pass, wherever it sits in the input. -/
theorem buildIndexAux_none (row : BowtieRow) (hrow : indexLine row = none) :
    ∀ (l₁ l₂ : List BowtieRow) (r0 : List (String × FragInfo))
      (m0 : List (String × Nat)),
      buildIndexAux (l₁ ++ row :: l₂) r0 m0 = none
  | [], l₂, r0, m0 => by rw [List.nil_append, buildIndexAux, hrow]
  | a :: t, l₂, r0, m0 => by
    rw [List.cons_append, buildIndexAux]
    cases hA : indexLine a with
    | none => rfl
    | some p =>
      obtain ⟨rname, info⟩ := p
      exact buildIndexAux_none row hrow t l₂ _ _

/-- Invariant of the index-building loop: per identifier, the resolved map
holds the payload of the last row with that identifier (falling back to the
initial accumulator) and the count grows by the number of such rows. -/
theorem buildIndexAux_spec :
    ∀ (rows : List BowtieRow) (r0 : List (String × FragInfo))
      (m0 : List (String × Nat)) (rn : List (String × FragInfo))
      (mt : List (String × Nat)),
      buildIndexAux rows r0 m0 = some (rn, mt) → ∀ id : String,
      (lookup rn id =
        (match (rowsWithId rows id).getLast? with
         | some r => (indexLine r).map Prod.snd
         | none => lookup r0 id))
      ∧ (lookup mt id).getD 0 = (lookup m0 id).getD 0 + (rowsWithId rows id).length
  | [], r0, m0, rn, mt, h, id => by
    rw [buildIndexAux] at h
    obtain ⟨h1, h2⟩ := Prod.mk.injEq .. ▸ Option.some.inj h
    subst h1; subst h2
    simp [rowsWithId]
  | row :: rest, r0, m0, rn, mt, h, id => by
    rw [buildIndexAux] at h
    cases hL : indexLine row with
    | none => rw [hL] at h; exact absurd h (by simp)
    | some p =>
      obtain ⟨i, f⟩ := p
      rw [hL] at h
      have ih := buildIndexAux_spec rest _ _ rn mt h id
      by_cases hii : i = id
      · subst hii
        have hfilter : rowsWithId (row :: rest) i = row :: rowsWithId rest i := by
          simp [rowsWithId, List.filter_cons, hL]
        rw [hfilter]
        constructor
        · rw [List.getLast?_cons]
          cases hLast : (rowsWithId rest i).getLast? with
          | none =>
            rw [hLast] at ih
            simp only [Option.getD_none] at *
            rw [ih.1, lookup_upsert, if_pos rfl, hL]
            rfl
          | some r' =>
            rw [hLast] at ih
            simpa using ih.1
        · rw [ih.2, lookupD_bumpCount, if_pos rfl, List.length_cons]
          omega
      · have hfilter : rowsWithId (row :: rest) id = rowsWithId rest id := by
          simp [rowsWithId, List.filter_cons, hL, hii]
        rw [hfilter]
        constructor
        · rw [ih.1, lookup_upsert, if_neg (fun hh => hii hh.symm)]
        · rw [ih.2, lookupD_bumpCount, if_neg (fun hh => hii hh.symm)]
          omega

/-- Explicit value of `processEntry` on a `+`-strand entry whose fragment is
found: downstream is the suffix, upstream the prefix. -/
theorem processEntry_eq_plus (min_seq_len : Nat) (rname : String)
    (rf rs : List Char) (mi : String) (i : Nat) (hf : pyFind rs rf = some i) :
    processEntry min_seq_len rname ⟨rf, rs, "+", mi⟩ = .ok
      ((if min_seq_len ≤ (rs.drop (i + rf.length)).length then
          [⟨rname, "+", .downstream, rs.drop (i + rf.length)⟩] else []) ++
       (if min_seq_len ≤ (rs.take i).length then
          [⟨rname, "+", .upstream, rs.take i⟩] else []),
       { downstream_pass :=
           if min_seq_len ≤ (rs.drop (i + rf.length)).length then "yes" else "no"
         upstream_pass := if min_seq_len ≤ (rs.take i).length then "yes" else "no"
         upstream := rs.take i
         mir := rf
         mirname := mi
         downstream := rs.drop (i + rf.length)
         fullread := rs }) := by
  simp [processEntry, hf]

/-- Explicit value of `processEntry` on a `-`-strand entry whose fragment is
found: downstream is the prefix, upstream the suffix. -/
theorem processEntry_eq_minus (min_seq_len : Nat) (rname : String)
    (rf rs : List Char) (mi : String) (i : Nat) (hf : pyFind rs rf = some i) :
    processEntry min_seq_len rname ⟨rf, rs, "-", mi⟩ = .ok
      ((if min_seq_len ≤ (rs.take i).length then
          [⟨rname, "-", .downstream, rs.take i⟩] else []) ++
       (if min_seq_len ≤ (rs.drop (i + rf.length)).length then
          [⟨rname, "-", .upstream, rs.drop (i + rf.length)⟩] else []),
       { downstream_pass := if min_seq_len ≤ (rs.take i).length then "yes" else "no"
         upstream_pass :=
           if min_seq_len ≤ (rs.drop (i + rf.length)).length then "yes" else "no"
         upstream := rs.drop (i + rf.length)
         mir := rf
         mirname := mi
         downstream := rs.take i
         fullread := rs }) := by
  simp [processEntry, hf]

/-- An entry with an unrecognized strand makes its own processing fail. -/
theorem processEntry_error_of_badStrand (min_seq_len : Nat) (rname : String)
    (d : SeqEntry) (h1 : d.strand ≠ "+") (h2 : d.strand ≠ "-") :
    ∃ e, processEntry min_seq_len rname d = .error e := by
  cases hf : pyFind d.read_sequence d.read_fragment with
  | none => exact ⟨.fragmentNotFound, by rw [processEntry, hf]⟩
  | some i => exact ⟨.badStrand, by rw [processEntry, hf]; simp [h1, h2]⟩

/-- An entry with an unrecognized strand anywhere in the worklist makes the
whole flank-extraction pass fail. -/
theorem writeAux_error (min_seq_len : Nat) :
    ∀ (l : List (String × SeqEntry)) (acc : List Candidate × List (String × MetricsRow))
      (rname : String) (d : SeqEntry),
      (rname, d) ∈ l → d.strand ≠ "+" → d.strand ≠ "-" →
      ∃ e, writeAux min_seq_len l acc = .error e
  | [], acc, rname, d, hmem, _, _ => absurd hmem (List.not_mem_nil _)
  | p :: rest, acc, rname, d, hmem, h1, h2 => by
    rcases List.mem_cons.mp hmem with hp | hp
    · obtain ⟨e, he⟩ := processEntry_error_of_badStrand min_seq_len rname d h1 h2
      refine ⟨e, ?_⟩
      rw [writeAux, ← hp, he]
    · cases hP : processEntry min_seq_len p.1 p.2 with
      | error e => exact ⟨e, by rw [writeAux, hP]⟩
      | ok q =>
        obtain ⟨cs, row⟩ := q
        obtain ⟨e, he⟩ := writeAux_error min_seq_len rest
          (acc.1 ++ cs, upsert acc.2 p.1 row) rname d hp h1 h2
        exact ⟨e, by rw [writeAux, hP]; exact he⟩

/-! ### The claims -/

/-- Claim C1: for a `-`-strand record with a mismatch descriptor at position
`p`, reconstruction overwrites the base at index `len(aligned_sequence)-1-p`
of the fragment with the descriptor's reference base; in particular, for the
`-`-strand record with mismatch `0:G>T` on aligned sequence `ACGT` the
reconstructed fragment is `ACGG`; for strand `+` the base at index `p` itself
is overwritten. -/
theorem claim_C1 (q : List Char) (p : Nat) (ref qu : Char)
    (mir rn off qual alt : String) (hp : p < q.length) :
    (get_reference_seq_from_query ⟨mir, "-", rn, off, q, qual, alt, [⟨p, ref, qu⟩]⟩ =
       some (rn, q.set (q.length - 1 - p) ref, "-", mir))
    ∧ (get_reference_seq_from_query ⟨mir, "+", rn, off, q, qual, alt, [⟨p, ref, qu⟩]⟩ =
       some (rn, q.set p ref, "+", mir))
    ∧ (get_reference_seq_from_query
        ⟨mir, "-", rn, off, ['A','C','G','T'], qual, alt, [⟨0, 'G', 'T'⟩]⟩ =
       some (rn, ['A','C','G','G'], "-", mir)) := by
  refine ⟨?_, ?_, rfl⟩
  · have h := reconstruct_single "-" q p ref qu mir rn off qual alt hp
    rwa [if_pos rfl] at h
  · have h := reconstruct_single "+" q p ref qu mir rn off qual alt hp
    rwa [if_neg (by decide)] at h

theorem claim_C1_witness :
    (0 < (['A','C','G','T'] : List Char).length)
    ∧ (get_reference_seq_from_query
        ⟨"mir-1", "-", "read", "0", ['A','C','G','T'], "IIII", "0", [⟨0, 'G', 'T'⟩]⟩ =
       some ("read", ['A','C','G','G'], "-", "mir-1")) :=
  ⟨by decide,
   (claim_C1 ['A','C','G','T'] 0 'G' 'T' "mir-1" "read" "0" "IIII" "0" (by decide)).1⟩

/-- Claim C3 as stated is false: on the `+`-strand record with mismatch
`2:A>C` and aligned sequence `TTCAA` the code overwrites index 2 with `A`,
yielding `TTAAA`, not the `TTACA` stated by the spec. -/
theorem claim_C3_counterexample :
    (get_reference_seq_from_query
        ⟨"mir-x", "+", "read#1", "0", ['T','T','C','A','A'], "IIIII", "0", [⟨2, 'A', 'C'⟩]⟩ =
       some ("read#1", ['T','T','A','A','A'], "+", "mir-x"))
    ∧ (['T','T','A','A','A'] : List Char) ≠ ['T','T','A','C','A'] :=
  ⟨rfl, by decide⟩

/-- Claim C3, amended: for a `+`-strand record with mismatch descriptor
`2:A>C` and aligned sequence `TTCAA`, the reconstructed fragment equals
`TTAAA` (index 2 overwritten with reference base `A`). -/
theorem claim_C3_amended (mir rn off qual alt : String) :
    get_reference_seq_from_query
        ⟨mir, "+", rn, off, ['T','T','C','A','A'], qual, alt, [⟨2, 'A', 'C'⟩]⟩ =
      some (rn, ['T','T','A','A','A'], "+", mir) := rfl

/-- Claim C7: when the descriptor's aligned base disagrees with the base at
the mapped position, reconstruction neither raises nor aborts: the stated
reference base is still written and the function returns normally. -/
theorem claim_C7 (q : List Char) (p : Nat) (ref qu : Char)
    (mir rn off qual alt : String) (hp : p < q.length) :
    (q.get? p ≠ some qu →
      get_reference_seq_from_query ⟨mir, "+", rn, off, q, qual, alt, [⟨p, ref, qu⟩]⟩ =
        some (rn, q.set p ref, "+", mir))
    ∧ (q.get? (q.length - 1 - p) ≠ some qu →
      get_reference_seq_from_query ⟨mir, "-", rn, off, q, qual, alt, [⟨p, ref, qu⟩]⟩ =
        some (rn, q.set (q.length - 1 - p) ref, "-", mir)) := by
  constructor
  · intro _
    have h := reconstruct_single "+" q p ref qu mir rn off qual alt hp
    rwa [if_neg (by decide)] at h
  · intro _
    have h := reconstruct_single "-" q p ref qu mir rn off qual alt hp
    rwa [if_pos rfl] at h

theorem claim_C7_witness :
    (1 < (['A','C','G','T'] : List Char).length)
    ∧ ((['A','C','G','T'] : List Char).get? 1 ≠ some 'A')
    ∧ (get_reference_seq_from_query
        ⟨"mir-7", "+", "read", "0", ['A','C','G','T'], "IIII", "0", [⟨1, 'G', 'A'⟩]⟩ =
       some ("read", ['A','G','G','T'], "+", "mir-7")) :=
  ⟨by decide, by decide,
   (claim_C7 ['A','C','G','T'] 1 'G' 'A' "mir-7" "read" "0" "IIII" "0"
     (by decide)).1 (by decide)⟩

/-- Claim C10 as stated is false: a `-`-strand descriptor at position equal
to the length of the aligned sequence maps to Python index `-1`, and the
slice arithmetic `rseq[:-1] + ref + rseq[0:]` re-appends the whole string:
on `ACGT` with descriptor `4:G>T` the fragment becomes the 8-character
`ACGGACGT`, while the in-range index check `qseq[-1]` passes, so the
function returns it. -/
theorem claim_C10_counterexample :
    (get_reference_seq_from_query
        ⟨"mir-y", "-", "read#1", "0", ['A','C','G','T'], "IIII", "0", [⟨4, 'G', 'T'⟩]⟩ =
       some ("read#1", ['A','C','G','G','A','C','G','T'], "-", "mir-y"))
    ∧ (['A','C','G','G','A','C','G','T'] : List Char).length ≠
        (['A','C','G','T'] : List Char).length :=
  ⟨rfl, by decide⟩

/-- Claim C10, amended: for every alignment record whose mismatch positions
are all strictly below the length of the aligned sequence, reconstruction
succeeds and the fragment has exactly the length of the aligned sequence. -/
theorem claim_C10_amended (row : BowtieRow)
    (h : ∀ m ∈ row.mutations, m.pos < row.qseq.length) :
    ∃ frag, (get_reference_seq_from_query row).map (fun t => t.2.1) = some frag ∧
      frag.length = row.qseq.length := by
  obtain ⟨out, hout, hlen⟩ :=
    applyMutations_length row.strand row.qseq row.mutations row.qseq rfl h
  refine ⟨out, ?_, hlen⟩
  rw [get_reference_seq_from_query, hout]
  rfl

theorem claim_C10_amended_witness :
    (∀ m ∈ exRow10.mutations, m.pos < exRow10.qseq.length)
    ∧ ∃ frag, (get_reference_seq_from_query exRow10).map (fun t => t.2.1) = some frag ∧
        frag.length = exRow10.qseq.length :=
  ⟨by decide, claim_C10_amended exRow10 (by decide)⟩

/-- Claim C5: after index building, the resolved mapping holds, per stripped
identifier, the payload reconstructed from the last record bearing that
identifier (last write wins), and the counts mapping holds the total number
of records bearing that identifier. -/
theorem claim_C5 (rows : List BowtieRow) (rnames : List (String × FragInfo))
    (metrics : List (String × Nat))
    (h : get_rnames_and_rseq_fragments_from_bowtie_output rows = some (rnames, metrics))
    (id : String) :
    lookup rnames id =
      ((rowsWithId rows id).getLast?).bind (fun r => (indexLine r).map Prod.snd)
    ∧ (lookup metrics id).getD 0 = (rowsWithId rows id).length := by
  have h2 := buildIndexAux_spec rows [] [] rnames metrics h id
  constructor
  · rw [h2.1]
    cases (rowsWithId rows id).getLast? with
    | none => rfl
    | some r => rfl
  · have h3 := h2.2
    simp only [lookup, Option.getD_none] at h3
    omega

theorem claim_C5_witness :
    (get_rnames_and_rseq_fragments_from_bowtie_output [exRowA, exRowB] =
      some ([("readA", (⟨['G','G'], "+", "mir2"⟩ : FragInfo))], [("readA", 2)]))
    ∧ lookup [("readA", (⟨['G','G'], "+", "mir2"⟩ : FragInfo))] "readA" =
        ((rowsWithId [exRowA, exRowB] "readA").getLast?).bind
          (fun r => (indexLine r).map Prod.snd)
    ∧ (lookup [("readA", 2)] "readA").getD 0 =
        (rowsWithId [exRowA, exRowB] "readA").length :=
  ⟨by decide,
   (claim_C5 [exRowA, exRowB] [("readA", ⟨['G','G'], "+", "mir2"⟩)] [("readA", 2)]
     (by decide) "readA").1,
   (claim_C5 [exRowA, exRowB] [("readA", ⟨['G','G'], "+", "mir2"⟩)] [("readA", 2)]
     (by decide) "readA").2⟩

/-- The first component returned by `get_reference_seq_from_query` is always
the row's reference name. -/
theorem get_reference_seq_fst (row : BowtieRow)
    (t : String × List Char × String × String)
    (h : get_reference_seq_from_query row = some t) : t.1 = row.ref_name := by
  rw [get_reference_seq_from_query, Option.map_eq_some'] at h
  obtain ⟨rseq, _, hf⟩ := h
  rw [← hf]

/-- Claim C9: index building succeeds on a record only if its reference name
has exactly one `#` delimiter — otherwise the whole run aborts — and on
success the identifier is the prefix of the name before the delimiter. -/
theorem claim_C9 (row : BowtieRow) :
    (row.ref_name.data.count '#' ≠ 1 →
      ∀ l₁ l₂ : List BowtieRow,
        get_rnames_and_rseq_fragments_from_bowtie_output (l₁ ++ row :: l₂) = none)
    ∧ (row.ref_name.data.count '#' = 1 →
      ∀ (rn : String) (frag : List Char) (strand mir : String),
        get_reference_seq_from_query row = some (rn, frag, strand, mir) →
        indexLine row = some (splitHashHead row.ref_name, ⟨frag, strand, mir⟩)) := by
  constructor
  · intro hcount l₁ l₂
    have hnone : indexLine row = none := by
      rw [indexLine]
      cases hR : get_reference_seq_from_query row with
      | none => rfl
      | some t =>
        obtain ⟨rn, frag, strand, mir⟩ := t
        have hfst : rn = row.ref_name := get_reference_seq_fst row _ hR
        subst hfst
        simp only [hcount, if_false]
    exact buildIndexAux_none row hnone l₁ l₂ [] []
  · intro hcount rn frag strand mir hR
    have hfst : rn = row.ref_name := get_reference_seq_fst row _ hR
    subst hfst
    rw [indexLine, hR]
    simp [hcount]

theorem claim_C9_witness :
    (exRowBad.ref_name.data.count '#' ≠ 1)
    ∧ get_rnames_and_rseq_fragments_from_bowtie_output ([] ++ exRowBad :: []) = none :=
  ⟨by decide, (claim_C9 exRowBad).1 (by decide) [] []⟩

/-- Claim C2: when the fragment occurs in the full sequence, the prefix
before the first occurrence, the fragment, and the suffix after it
concatenate back to the full sequence; with strand `+` the upstream flank is
the prefix and the downstream flank the suffix (so
`upstream+fragment+downstream` rebuilds the read), and with strand `-` the
assignment is swapped (so `downstream+fragment+upstream` rebuilds it). -/
theorem claim_C2 (min_seq_len : Nat) (rname : String) (d : SeqEntry) (i : Nat)
    (hf : pyFind d.read_sequence d.read_fragment = some i) :
    (d.read_sequence.take i ++ d.read_fragment ++
       d.read_sequence.drop (i + d.read_fragment.length) = d.read_sequence)
    ∧ (d.strand = "+" → ∃ cs m, processEntry min_seq_len rname d = .ok (cs, m) ∧
        m.upstream ++ d.read_fragment ++ m.downstream = d.read_sequence)
    ∧ (d.strand = "-" → ∃ cs m, processEntry min_seq_len rname d = .ok (cs, m) ∧
        m.downstream ++ d.read_fragment ++ m.upstream = d.read_sequence) := by
  obtain ⟨rf, rs, st, mi⟩ := d
  dsimp only at hf ⊢
  have hsplit := pyFind_spec rs rf i hf
  refine ⟨hsplit, ?_, ?_⟩
  · intro hs
    subst hs
    exact ⟨_, _, processEntry_eq_plus min_seq_len rname rf rs mi i hf, hsplit⟩
  · intro hs
    subst hs
    exact ⟨_, _, processEntry_eq_minus min_seq_len rname rf rs mi i hf, hsplit⟩

theorem claim_C2_witness :
    (pyFind ['A','C','G','T'] ['C','G'] = some 1)
    ∧ ((['A','C','G','T'] : List Char).take 1 ++ ['C','G'] ++
        (['A','C','G','T'] : List Char).drop (1 + (['C','G'] : List Char).length) =
       ['A','C','G','T'])
    ∧ ∃ cs m,
        processEntry 18 "read" ⟨['C','G'], ['A','C','G','T'], "+", "m"⟩ = .ok (cs, m) ∧
        m.upstream ++ ['C','G'] ++ m.downstream = ['A','C','G','T'] :=
  ⟨by decide,
   (claim_C2 18 "read" ⟨['C','G'], ['A','C','G','T'], "+", "m"⟩ 1 (by decide)).1,
   (claim_C2 18 "read" ⟨['C','G'], ['A','C','G','T'], "+", "m"⟩ 1 (by decide)).2.1 rfl⟩

/-- Claim C8: an entry whose strand is neither `+` nor `-` makes flank
extraction fail as a whole — the run aborts before any candidate or metrics
output is produced (`sys.exit(1)`/`return 1` both abort the process before
the caller writes the output files). -/
theorem claim_C8 (name2seq : List (String × SeqEntry)) (min_seq_len : Nat)
    (rname : String) (d : SeqEntry) (hmem : (rname, d) ∈ name2seq)
    (h1 : d.strand ≠ "+") (h2 : d.strand ≠ "-") :
    ∃ e, write_candidate_chimeric_targets_to_file name2seq min_seq_len = .error e :=
  writeAux_error min_seq_len name2seq ([], []) rname d hmem h1 h2

theorem claim_C8_witness :
    ((("read", (⟨['C'], ['A','C'], "*", "m"⟩ : SeqEntry)) ∈
        [("read", (⟨['C'], ['A','C'], "*", "m"⟩ : SeqEntry))])
     ∧ ((⟨['C'], ['A','C'], "*", "m"⟩ : SeqEntry).strand ≠ "+")
     ∧ ((⟨['C'], ['A','C'], "*", "m"⟩ : SeqEntry).strand ≠ "-"))
    ∧ ∃ e, write_candidate_chimeric_targets_to_file
        [("read", (⟨['C'], ['A','C'], "*", "m"⟩ : SeqEntry))] 18 = .error e :=
  ⟨⟨by decide, by decide, by decide⟩,
   claim_C8 [("read", ⟨['C'], ['A','C'], "*", "m"⟩)] 18 "read"
     ⟨['C'], ['A','C'], "*", "m"⟩ (by decide) (by decide) (by decide)⟩

/-- Claim C6: a flank of length exactly `min_seq_len` yields a candidate with
pass flag `yes`; a flank of length `min_seq_len - 1` yields no candidate of
that flank kind but still populates the metrics row (pass flag `no`, flank
sequence recorded); with `min_seq_len = 0` every flank, including empty ones,
passes. -/
theorem claim_C6 (min_seq_len : Nat) (rname : String) (d : SeqEntry) (i : Nat)
    (hf : pyFind d.read_sequence d.read_fragment = some i)
    (hs : d.strand = "+" ∨ d.strand = "-") :
    ∃ cs m, processEntry min_seq_len rname d = .ok (cs, m) ∧
      (m.downstream.length = min_seq_len →
        (⟨rname, d.strand, .downstream, m.downstream⟩ : Candidate) ∈ cs ∧
        m.downstream_pass = "yes") ∧
      (m.downstream.length + 1 = min_seq_len →
        (∀ c ∈ cs, c.kind ≠ FlankKind.downstream) ∧ m.downstream_pass = "no") ∧
      (m.upstream.length = min_seq_len →
        (⟨rname, d.strand, .upstream, m.upstream⟩ : Candidate) ∈ cs ∧
        m.upstream_pass = "yes") ∧
      (m.upstream.length + 1 = min_seq_len →
        (∀ c ∈ cs, c.kind ≠ FlankKind.upstream) ∧ m.upstream_pass = "no") ∧
      (min_seq_len = 0 →
        (⟨rname, d.strand, .downstream, m.downstream⟩ : Candidate) ∈ cs ∧
        (⟨rname, d.strand, .upstream, m.upstream⟩ : Candidate) ∈ cs ∧
        m.downstream_pass = "yes" ∧ m.upstream_pass = "yes") ∧
      (d.strand = "+" → m.upstream = d.read_sequence.take i ∧
        m.downstream = d.read_sequence.drop (i + d.read_fragment.length)) ∧
      (d.strand = "-" → m.downstream = d.read_sequence.take i ∧
        m.upstream = d.read_sequence.drop (i + d.read_fragment.length)) := by
  obtain ⟨rf, rs, st, mi⟩ := d
  dsimp only at hf hs ⊢
  obtain ⟨L, hL⟩ : ∃ x, List.take i rs = x := ⟨_, rfl⟩
  obtain ⟨H, hH⟩ : ∃ x, List.drop (i + rf.length) rs = x := ⟨_, rfl⟩
  rcases hs with hs | hs
  · subst hs
    have hPE := processEntry_eq_plus min_seq_len rname rf rs mi i hf
    rw [hL, hH] at hPE
    refine ⟨_, _, hPE, ?_, ?_, ?_, ?_, ?_, ?_, ?_⟩
    · intro h
      dsimp only at h
      have hA : min_seq_len ≤ H.length := by omega
      simp [hA]
    · intro h
      dsimp only at h
      have hA : ¬ (min_seq_len ≤ H.length) := by omega
      by_cases hB : min_seq_len ≤ L.length <;> simp [hA, hB]
    · intro h
      dsimp only at h
      have hB : min_seq_len ≤ L.length := by omega
      simp [hB]
    · intro h
      dsimp only at h
      have hB : ¬ (min_seq_len ≤ L.length) := by omega
      by_cases hA : min_seq_len ≤ H.length <;> simp [hA, hB]
    · intro h
      subst h
      simp [Nat.zero_le]
    · intro _
      exact ⟨hL.symm, hH.symm⟩
    · intro h
      exact absurd h (by decide)
  · subst hs
    have hPE := processEntry_eq_minus min_seq_len rname rf rs mi i hf
    rw [hL, hH] at hPE
    refine ⟨_, _, hPE, ?_, ?_, ?_, ?_, ?_, ?_, ?_⟩
    · intro h
      dsimp only at h
      have hA : min_seq_len ≤ L.length := by omega
      simp [hA]
    · intro h
      dsimp only at h
      have hA : ¬ (min_seq_len ≤ L.length) := by omega
      by_cases hB : min_seq_len ≤ H.length <;> simp [hA, hB]
    · intro h
      dsimp only at h
      have hB : min_seq_len ≤ H.length := by omega
      simp [hB]
    · intro h
      dsimp only at h
      have hB : ¬ (min_seq_len ≤ H.length) := by omega
      by_cases hA : min_seq_len ≤ L.length <;> simp [hA, hB]
    · intro h
      subst h
      simp [Nat.zero_le]
    · intro h
      exact absurd h (by decide)
    · intro _
      exact ⟨hL.symm, hH.symm⟩

theorem claim_C6_witness :
    (pyFind ['A','A','C','G','T','T'] ['C','G'] = some 2)
    ∧ ((⟨['C','G'], ['A','A','C','G','T','T'], "+", "m"⟩ : SeqEntry).strand = "+" ∨
       (⟨['C','G'], ['A','A','C','G','T','T'], "+", "m"⟩ : SeqEntry).strand = "-")
    ∧ ∃ cs m,
        processEntry 2 "read" ⟨['C','G'], ['A','A','C','G','T','T'], "+", "m"⟩ =
          .ok (cs, m) ∧
        (m.downstream.length = 2 →
          (⟨"read", (⟨['C','G'], ['A','A','C','G','T','T'], "+", "m"⟩ : SeqEntry).strand,
             .downstream, m.downstream⟩ : Candidate) ∈ cs ∧
          m.downstream_pass = "yes") ∧
        (m.downstream.length + 1 = 2 →
          (∀ c ∈ cs, c.kind ≠ FlankKind.downstream) ∧ m.downstream_pass = "no") ∧
        (m.upstream.length = 2 →
          (⟨"read", (⟨['C','G'], ['A','A','C','G','T','T'], "+", "m"⟩ : SeqEntry).strand,
             .upstream, m.upstream⟩ : Candidate) ∈ cs ∧
          m.upstream_pass = "yes") ∧
        (m.upstream.length + 1 = 2 →
          (∀ c ∈ cs, c.kind ≠ FlankKind.upstream) ∧ m.upstream_pass = "no") ∧
        ((2 : Nat) = 0 →
          (⟨"read", (⟨['C','G'], ['A','A','C','G','T','T'], "+", "m"⟩ : SeqEntry).strand,
             .downstream, m.downstream⟩ : Candidate) ∈ cs ∧
          (⟨"read", (⟨['C','G'], ['A','A','C','G','T','T'], "+", "m"⟩ : SeqEntry).strand,
             .upstream, m.upstream⟩ : Candidate) ∈ cs ∧
          m.downstream_pass = "yes" ∧ m.upstream_pass = "yes") ∧
        ((⟨['C','G'], ['A','A','C','G','T','T'], "+", "m"⟩ : SeqEntry).strand = "+" →
          m.upstream =
            (⟨['C','G'], ['A','A','C','G','T','T'], "+", "m"⟩ : SeqEntry).read_sequence.take 2 ∧
          m.downstream =
            (⟨['C','G'], ['A','A','C','G','T','T'], "+", "m"⟩ : SeqEntry).read_sequence.drop
              (2 + (⟨['C','G'], ['A','A','C','G','T','T'], "+", "m"⟩ : SeqEntry).read_fragment.length)) ∧
        ((⟨['C','G'], ['A','A','C','G','T','T'], "+", "m"⟩ : SeqEntry).strand = "-" →
          m.downstream =
            (⟨['C','G'], ['A','A','C','G','T','T'], "+", "m"⟩ : SeqEntry).read_sequence.take 2 ∧
          m.upstream =
            (⟨['C','G'], ['A','A','C','G','T','T'], "+", "m"⟩ : SeqEntry).read_sequence.drop
              (2 + (⟨['C','G'], ['A','A','C','G','T','T'], "+", "m"⟩ : SeqEntry).read_fragment.length)) :=
  ⟨by decide, Or.inl rfl,
   claim_C6 2 "read" ⟨['C','G'], ['A','A','C','G','T','T'], "+", "m"⟩ 2
     (by decide) (Or.inl rfl)⟩

/-- Claim C4: two full-sequence records with the same sequence but different
identifiers, one resolved via alignment and one not, both receive entries
carrying the identical fragment/strand/source-label payload of the resolved
representative, each keyed by the record's own identifier. -/
theorem claim_C4 (r1 r2 : FastaRecord) (rnames : List (String × FragInfo))
    (f : FragInfo)
    (h1 : lookup rnames r1.id = some f) (h2 : lookup rnames r2.id = none)
    (hne : r1.id ≠ r2.id) (hseq : r1.seq = r2.seq) :
    add_all_sequences_to_name2seq_dictionary [r1, r2]
        (get_name2seq_dict [r1, r2] rnames).1 (get_name2seq_dict [r1, r2] rnames).2 =
      some [(r1.id, ⟨f.fragment, r1.seq, f.strand, f.mir⟩),
            (r2.id, ⟨f.fragment, r1.seq, f.strand, f.mir⟩)] := by
  obtain ⟨n1, s1⟩ := r1
  obtain ⟨n2, s2⟩ := r2
  dsimp only at h1 h2 hne hseq ⊢
  subst hseq
  have hget : get_name2seq_dict [⟨n1, s1⟩, ⟨n2, s1⟩] rnames =
      ([(n1, ⟨f.fragment, s1, f.strand, f.mir⟩)], [(s1, n1)]) := by
    simp [get_name2seq_dict, h1, h2, upsert]
  rw [add_all_sequences_to_name2seq_dictionary, hget]
  simp [addAllAux, lookup, upsert, hne]

theorem claim_C4_witness :
    (lookup [("readA", (⟨['A'], "+", "mir1"⟩ : FragInfo))] "readA" =
      some ⟨['A'], "+", "mir1"⟩)
    ∧ (lookup [("readA", (⟨['A'], "+", "mir1"⟩ : FragInfo))] "readB" = none)
    ∧ (("readA" : String) ≠ "readB")
    ∧ ((['A','C'] : List Char) = ['A','C'])
    ∧ add_all_sequences_to_name2seq_dictionary
        [⟨"readA", ['A','C']⟩, ⟨"readB", ['A','C']⟩]
        (get_name2seq_dict [⟨"readA", ['A','C']⟩, ⟨"readB", ['A','C']⟩]
          [("readA", ⟨['A'], "+", "mir1"⟩)]).1
        (get_name2seq_dict [⟨"readA", ['A','C']⟩, ⟨"readB", ['A','C']⟩]
          [("readA", ⟨['A'], "+", "mir1"⟩)]).2 =
      some [("readA", ⟨['A'], ['A','C'], "+", "mir1"⟩),
            ("readB", ⟨['A'], ['A','C'], "+", "mir1"⟩)] :=
  ⟨by decide, by decide, by decide, by decide,
   claim_C4 ⟨"readA", ['A','C']⟩ ⟨"readB", ['A','C']⟩
     [("readA", ⟨['A'], "+", "mir1"⟩)] ⟨['A'], "+", "mir1"⟩
     (by decide) (by decide) (by decide) (by decide)⟩

end ClashSeq
